import Mathlib

/-!
Verification of the voidrun sandbox control plane.

This file gives a shallow embedding, in Lean 4, of the transport and
lifecycle logic of the voidrun repository, and proves or refutes the
specification claims about it.  Byte streams and strings processed at
character level are modelled as `List Char`; stateful interactions with the
VMM and the guest agent are modelled by explicit parameters recording the
outcome of each external call, with the sequence of issued commands made
explicit in the result.
-/

namespace VoidRun

/-! ## Vsock CONNECT handshake (pkg/machine/agent_client.go, DialVsock) -/

/-- The single-quote character, written via its code point. -/
def squote : Char := Char.ofNat 39

/-- ASCII whitespace test used to model Go's `strings.TrimSpace` on the
ASCII handshake replies that occur here. -/
def isSpaceChar (c : Char) : Bool :=
  c = ' ' || c = '\t' || c = '\n' || c = '\r' ||
    c = Char.ofNat 11 || c = Char.ofNat 12

/-- Model of `strings.TrimSpace` on an ASCII byte sequence: drop
whitespace from both ends. -/
def trimSpace (l : List Char) : List Char :=
  ((l.dropWhile isSpaceChar).reverse.dropWhile isSpaceChar).reverse

/-- Model of `strings.HasPrefix(response, "OK")`. -/
def startsWithOK : List Char → Bool
  | 'O' :: 'K' :: _ => true
  | _ => false

/-- The read loop of `DialVsock` (agent_client.go lines 63-78): read the
stream one byte at a time; stop at the first newline, returning the
accumulated line and the untouched remainder of the stream; fail when the
accumulated line exceeds 64 bytes, or when a read fails (modelled by the
stream running out). -/
def readHandshakeLoop : List Char → List Char → Option (List Char × List Char)
  | _, [] => none
  | acc, c :: rest =>
    if c = '\n' then some (acc, rest)
    else if acc.length + 1 > 64 then none
    else readHandshakeLoop (acc ++ [c]) rest

/-- Outcome of `DialVsock` as seen by the caller: `conn = some rest` means
a live connection was handed over whose unconsumed input is `rest`;
`closed` records whether the deferred `conn.Close()` ran (it runs exactly
on the error paths, agent_client.go lines 41-45 and 91-94). -/
structure DialOutcome where
  conn : Option (List Char)
  closed : Bool
deriving DecidableEq, Repr

/-- The handshake phase of `DialVsock`: run the byte-at-a-time read loop,
trim the reply line, and validate the "OK" head; every failure closes the
connection, success hands over the connection with the remainder of the
guest's byte stream unconsumed. -/
def dialVsockHandshake (stream : List Char) : DialOutcome :=
  match readHandshakeLoop [] stream with
  | none => ⟨none, true⟩
  | some (line, rest) =>
    if startsWithOK (trimSpace line) then ⟨some rest, false⟩
    else ⟨none, true⟩

/-- The handshake phase of `SandboxService.UploadFile`
(internal/service/session_exec.go lines 708-716), which does NOT use
`DialVsock`: it issues one `conn.Read` into a 32-byte buffer and checks the
"OK" head of whatever arrived.  The single bulk read is modelled as the
kernel delivering all currently available bytes, up to 32. -/
def uploadHandshake (stream : List Char) : Option (List Char) :=
  match stream with
  | [] => none
  | _ =>
    let chunk := stream.take 32
    let rest := stream.drop 32
    if startsWithOK chunk then some rest else none

/-! ### Handshake loop lemmas -/

lemma readHandshakeLoop_some_iff (stream : List Char) :
    ∀ acc line rest, readHandshakeLoop acc stream = some (line, rest) →
      ∃ pre, '\n' ∉ pre ∧ stream = pre ++ '\n' :: rest ∧ line = acc ++ pre := by
  induction stream with
  | nil => intro acc line rest h; simp [readHandshakeLoop] at h
  | cons c s ih =>
    intro acc line rest h
    by_cases hc : c = '\n'
    · subst hc
      simp [readHandshakeLoop] at h
      exact ⟨[], by simp, by simp [h.2], by simp [h.1]⟩
    · by_cases hlen : acc.length + 1 > 64
      · simp [readHandshakeLoop, hc, hlen] at h
      · simp only [readHandshakeLoop, if_neg hc, if_neg hlen] at h
        obtain ⟨pre, hpre, hs, hline⟩ := ih (acc ++ [c]) line rest h
        refine ⟨c :: pre, ?_, by simp [hs], by simp [hline]⟩
        intro hmem
        rcases List.mem_cons.mp hmem with h1 | h1
        · exact hc h1.symm
        · exact hpre h1

lemma readHandshakeLoop_overflow (stream : List Char) :
    ∀ acc, acc.length ≤ 64 → 65 - acc.length ≤ stream.length →
      (∀ c ∈ stream.take (65 - acc.length), c ≠ '\n') →
      readHandshakeLoop acc stream = none := by
  induction stream with
  | nil =>
    intro acc hacc hlen _
    simp at hlen
    omega
  | cons c s ih =>
    intro acc hacc hlen hnl
    have hpos : 1 ≤ 65 - acc.length := by omega
    have hcmem : c ∈ (c :: s).take (65 - acc.length) := by
      cases h : 65 - acc.length with
      | zero => omega
      | succ n => simp [h]
    have hc : c ≠ '\n' := hnl c hcmem
    by_cases hover : acc.length + 1 > 64
    · simp [readHandshakeLoop, hc, hover]
    · simp only [readHandshakeLoop, if_neg hc, if_neg hover]
      apply ih (acc ++ [c])
      · simp only [List.length_append, List.length_cons, List.length_nil]
        omega
      · simp only [List.length_append, List.length_cons, List.length_nil]
        simp only [List.length_cons] at hlen
        omega
      · intro d hd
        apply hnl d
        have h1 : 65 - (acc ++ [c]).length = 65 - acc.length - 1 := by
          simp only [List.length_append, List.length_cons, List.length_nil]
          omega
        rw [h1] at hd
        obtain ⟨n, hn⟩ : ∃ n, 65 - acc.length = n + 1 := ⟨64 - acc.length, by omega⟩
        rw [hn] at hd ⊢
        simp only [Nat.add_sub_cancel] at hd
        simp only [List.take_succ_cons]
        exact List.mem_cons_of_mem _ hd

lemma readHandshakeLoop_complete (line : List Char) :
    ∀ acc rest, '\n' ∉ line → acc.length + line.length ≤ 64 →
      readHandshakeLoop acc (line ++ '\n' :: rest) = some (acc ++ line, rest) := by
  induction line with
  | nil => intro acc rest _ _; simp [readHandshakeLoop]
  | cons c l ih =>
    intro acc rest hnl hlen
    have hc : c ≠ '\n' := fun h => hnl (h ▸ List.mem_cons_self c l)
    have hover : ¬ acc.length + 1 > 64 := by simp at hlen ⊢; omega
    simp only [List.cons_append, readHandshakeLoop, if_neg hc, if_neg hover]
    have := ih (acc ++ [c]) rest (fun h => hnl (List.mem_cons_of_mem _ h))
      (by simp at hlen ⊢; omega)
    simpa using this

/-! ## WebSocket relay (internal/handler/pty.go, internal/handler/fs.go) -/

/-- A WebSocket message as the gorilla library presents it: an opcode
(1 = text, 2 = binary) and the payload bytes. -/
structure WSMessage where
  msgType : Nat
  data : List Nat
deriving DecidableEq, Repr

/-- Forwarding step of both directions of `PTYHandler.Proxy` (and of
`PTYHandler.ConnectSession`): a message read as `(mt, msg)` is written to
the peer as `WriteMessage(mt, msg)`, unchanged. -/
def ptyProxyForward (m : WSMessage) : WSMessage := ⟨m.msgType, m.data⟩

/-- One direction of the PTY relay over an error-free incoming stream:
each message is forwarded in order. -/
def ptyProxyRelay (incoming : List WSMessage) : List WSMessage :=
  incoming.map ptyProxyForward

/-- Client-to-agent direction of `FSHandler.StreamWatchEvents`
(internal/handler/fs.go lines 762-769): each client message is read with
`ReadMessage` and discarded; nothing is ever written to the agent. -/
def watchClientToAgentForward (_m : WSMessage) : List WSMessage := []

/-- The client-to-agent direction of the watch relay over an incoming
stream: the concatenation of what each read message causes to be sent. -/
def watchClientToAgentRelay (incoming : List WSMessage) : List WSMessage :=
  incoming.foldr (fun m acc => watchClientToAgentForward m ++ acc) []

/-! ## Guest shell command construction (internal/service/fs.go)

Paths are `List Char`.  `cleanPath` models Go's `path/filepath.Clean` for
Unix paths (`filepath.Clean` has no volume handling there) through the
standard component-stack reading of that algorithm; `goDir` and `goBase`
model `filepath.Dir` and `filepath.Base`.  `escapeQuotes` models
`strings.ReplaceAll(s, q, q backslash q q)` where `q` is the single-quote
character. -/

/-- Split a character list on a separator, keeping empty components, as
`strings.Split` does. -/
def splitOnChar (sep : Char) : List Char → List (List Char)
  | [] => [[]]
  | c :: rest =>
    match splitOnChar sep rest with
    | [] => [[]]
    | h :: t => if c = sep then [] :: h :: t else (c :: h) :: t

/-- Join components with a separator character. -/
def joinWith (sep : Char) : List (List Char) → List Char
  | [] => []
  | [x] => x
  | x :: xs => x ++ sep :: joinWith sep xs

/-- One step of the component stack of `filepath.Clean`: a ".." pops a
normal component, stacks after a stacked "..", and at the root is dropped
when the path is rooted; other components are pushed. -/
def cleanStep (rooted : Bool) (st : List (List Char)) (c : List Char) :
    List (List Char) :=
  if c = ['.', '.'] then
    match st with
    | top :: rest => if top = ['.', '.'] then c :: st else rest
    | [] => if rooted then [] else [c]
  else c :: st

/-- Model of Go `path/filepath.Clean` on Unix paths: empty path cleans to
".", empty and "." components vanish, ".." components resolve against the
stack, and a rooted result keeps its leading slash. -/
def cleanPath (p : List Char) : List Char :=
  if p = [] then ['.']
  else
    let rooted := p.head? == some '/'
    let comps := (splitOnChar '/' p).filter
      (fun c => !(c == []) && !(c == ['.']))
    let parts := (comps.foldl (cleanStep rooted) []).reverse
    if rooted then '/' :: joinWith '/' parts
    else if parts = [] then ['.']
    else joinWith '/' parts

/-- Clean a path and force a leading slash, as every shelled-out fs
operation in internal/service/fs.go does before interpolation. -/
def forceAbs (p : List Char) : List Char :=
  let c := cleanPath p
  if c.head? = some '/' then c else '/' :: c

/-- Model of `strings.ReplaceAll` replacing each single quote with
quote-backslash-quote-quote. -/
def escapeQuotes (p : List Char) : List Char :=
  p.foldr
    (fun c acc =>
      if c = squote then squote :: '\\' :: squote :: squote :: acc
      else c :: acc) []

/-- Wrap an interpolated argument in single quotes, as the `'%s'` format
verbs in internal/service/fs.go do. -/
def quoted (p : List Char) : List Char := squote :: p ++ [squote]

/-- Everything of `p` up to and including its last slash; empty when `p`
has no slash.  This is the slice `path[:i+1]` taken by Go `filepath.Dir`. -/
def takeThroughLastSlash (p : List Char) : List Char :=
  (p.reverse.dropWhile (fun c => !(c == '/'))).reverse

/-- Model of Go `filepath.Dir` on Unix paths. -/
def goDir (p : List Char) : List Char := cleanPath (takeThroughLastSlash p)

/-- Model of Go `filepath.Base` on Unix paths. -/
def goBase (p : List Char) : List Char :=
  if p = [] then ['.']
  else
    let p1 := (p.reverse.dropWhile (fun c => c == '/')).reverse
    if p1 = [] then ['/']
    else (p1.reverse.takeWhile (fun c => !(c == '/'))).reverse

/-- Command built by `FSService.DeleteFile`. -/
def deleteFileCmd (filePath : List Char) : List Char :=
  "rm -rf ".toList ++ quoted (escapeQuotes (forceAbs filePath))

/-- Command built by `FSService.CreateDirectory`. -/
def createDirectoryCmd (p : List Char) : List Char :=
  "mkdir -p ".toList ++ quoted (escapeQuotes (forceAbs p))

/-- Command built by `FSService.MoveFile`. -/
def moveFileCmd (sourcePath destPath : List Char) : List Char :=
  let src := forceAbs sourcePath
  let dst := forceAbs destPath
  "mkdir -p ".toList ++ quoted (escapeQuotes (goDir dst)) ++
    " && mv -f ".toList ++ quoted (escapeQuotes src) ++
    " ".toList ++ quoted (escapeQuotes dst)

/-- Command built by `FSService.CopyFile`. -/
def copyFileCmd (sourcePath destPath : List Char) : List Char :=
  let src := forceAbs sourcePath
  let dst := forceAbs destPath
  "mkdir -p ".toList ++ quoted (escapeQuotes (goDir dst)) ++
    " && cp -r ".toList ++ quoted (escapeQuotes src) ++
    " ".toList ++ quoted (escapeQuotes dst)

/-- Command built by `FSService.ChangePermissions`; the mode string is
escaped but not path-cleaned, matching the source. -/
def changePermissionsCmd (filePath mode : List Char) : List Char :=
  "chmod ".toList ++ quoted (escapeQuotes mode) ++
    " ".toList ++ quoted (escapeQuotes (forceAbs filePath))

/-- Command built by `FSService.HeadTail`, with the line clamp of the
source. -/
def headTailCmd (filePath : List Char) (lines : Int) (isHead : Bool) :
    List Char :=
  let n := if lines ≤ 0 then 10 else if lines > 10000 then 10000 else lines
  let op := if isHead then "head" else "tail"
  op.toList ++ " -n ".toList ++ (toString n).toList ++
    " ".toList ++ quoted (escapeQuotes (forceAbs filePath))

/-- Command built by `FSService.DiskUsage`. -/
def diskUsageCmd (p : List Char) : List Char :=
  "du -sh ".toList ++ quoted (escapeQuotes (forceAbs p))

/-- Command built by `FSService.SearchFiles`; the pattern is escaped and
embedded between literal asterisks inside the quotes. -/
def searchFilesCmd (dirPath pat : List Char) : List Char :=
  "find ".toList ++ quoted (escapeQuotes (forceAbs dirPath)) ++
    " -name ".toList ++ [squote, '*'] ++ escapeQuotes pat ++ ['*', squote] ++
    " -type f 2>/dev/null | head -100".toList

/-- Command built by `FSService.CompressFile` (internal/service/fs.go
lines 315-343).  Note the tar and tar.gz branches interpolate the raw
`clean`, `Dir(clean)` and `Base(clean)` values and the zip branch the raw
`clean` destination, while the escaped `srcEsc` is only used as the zip
source argument, exactly as the source does. -/
def compressFileCmd (sourcePath : List Char) (format : String) :
    Option (List Char) :=
  let clean := forceAbs sourcePath
  let srcEsc := escapeQuotes clean
  let baseName := goBase clean
  match format with
  | "tar" =>
    some ("tar -cf ".toList ++ [squote] ++ clean ++ ".tar".toList ++
      [squote] ++ " -C ".toList ++ quoted (goDir clean) ++
      " ".toList ++ quoted baseName)
  | "tar.gz" =>
    some ("tar -czf ".toList ++ [squote] ++ clean ++ ".tar.gz".toList ++
      [squote] ++ " -C ".toList ++ quoted (goDir clean) ++
      " ".toList ++ quoted baseName)
  | "zip" =>
    some ("zip -r ".toList ++ [squote] ++ clean ++ ".zip".toList ++
      [squote] ++ " ".toList ++ quoted srcEsc)
  | _ => none

/-- Boolean test that `needle` is a prefix of the second list, modelling
`strings.HasPrefix`. -/
def isPrefixOfB : List Char → List Char → Bool
  | [], _ => true
  | _ :: _, [] => false
  | a :: as, b :: bs => a == b && isPrefixOfB as bs

/-- Boolean test that `s` is a suffix of `p`, modelling
`strings.HasSuffix`. -/
def isSuffixOfB (s p : List Char) : Bool := isPrefixOfB s.reverse p.reverse

/-- Boolean substring containment, modelling `strings.Contains`. -/
def containsSub (needle : List Char) : List Char → Bool
  | [] => needle == []
  | c :: rest => isPrefixOfB needle (c :: rest) || containsSub needle rest

/-- Command built by `FSService.ExtractArchive`, dispatching on the
archive suffix. -/
def extractArchiveCmd (archivePath destPath : List Char) :
    Option (List Char) :=
  let archive := forceAbs archivePath
  let dest := forceAbs destPath
  let archiveEsc := escapeQuotes archive
  let destEsc := escapeQuotes dest
  if isSuffixOfB (".tar.gz".toList) archive || isSuffixOfB (".tgz".toList) archive then
    some ("mkdir -p ".toList ++ quoted destEsc ++ " && tar -xzf ".toList ++
      quoted archiveEsc ++ " -C ".toList ++ quoted destEsc)
  else if isSuffixOfB (".tar".toList) archive then
    some ("mkdir -p ".toList ++ quoted destEsc ++ " && tar -xf ".toList ++
      quoted archiveEsc ++ " -C ".toList ++ quoted destEsc)
  else if isSuffixOfB (".zip".toList) archive then
    some ("mkdir -p ".toList ++ quoted destEsc ++ " && unzip -q ".toList ++
      quoted archiveEsc ++ " -d ".toList ++ quoted destEsc)
  else none

/-! ## VMM API client error coercion (pkg/machine/client.go, request) -/

/-- The substring whose presence in an error body is coerced to success. -/
def invalidStateNeedle : List Char := "InvalidStateTransition".toList

/-- Outcome of `APIClient.request` (client.go lines 139-155) as a function
of the HTTP status and response body: 200 and 204 succeed; any other
status succeeds when the body contains `InvalidStateTransition`, and
otherwise fails with an error carrying the status and the body.  All VMM
command endpoints (vm.create, vm.boot, vm.pause, vm.resume, vm.snapshot,
vm.restore) funnel through `request` via `Send` and `SendJSON`. -/
def requestOutcome (status : Nat) (body : List Char) :
    Option (Nat × List Char) :=
  if status = 200 ∨ status = 204 then none
  else if containsSub invalidStateNeedle body then none
  else some (status, body)

/-! ## Health sweep (internal/service/session_exec.go, RefreshStatuses) -/

/-- Model of the state mapping inside `RefreshStatuses` (lines 613-624):
lower-case the VMM state, send running and runningvirtualized to running,
paused to paused, loaded and everything else to stopped.  The VMM states
are ASCII, for which `Char.toLower` agrees with `strings.ToLower`. -/
def mapVMState (s : List Char) : List Char :=
  if s.map Char.toLower = "running".toList then "running".toList
  else if s.map Char.toLower = "runningvirtualized".toList then "running".toList
  else if s.map Char.toLower = "paused".toList then "paused".toList
  else if s.map Char.toLower = "loaded".toList then "stopped".toList
  else "stopped".toList

/-- What one `RefreshStatuses` iteration decides for one sandbox:
whether `GetStateWithContext` was called, the status it computed, and the
`UpdateStatus` write it issued, if any. -/
structure SweepDecision where
  queriedVMM : Bool
  newStatus : List Char
  dbWrite : Option (List Char)
deriving DecidableEq, Repr

/-- The status a `RefreshStatuses` worker computes (session_exec.go lines
600-631): stopped when the socket is absent, otherwise determined by the
`vm.info` reply (`none` models a query error or timeout). -/
def refreshNewState (socketExists : Bool) (vmInfo : Option (List Char)) :
    List Char :=
  if socketExists then
    match vmInfo with
    | some st => mapVMState st
    | none => "stopped".toList
  else "stopped".toList

/-- One iteration of the `RefreshStatuses` loop for a sandbox whose
persisted status is `dbStatus`.  Mirrors session_exec.go lines 580-639:
the stopped-and-no-socket fast path skips (no VMM query, no write);
otherwise the VMM is queried exactly when the socket exists and a write is
issued only on change. -/
def refreshSandboxStep (dbStatus : List Char) (socketExists : Bool)
    (vmInfo : Option (List Char)) : SweepDecision :=
  if dbStatus = "stopped".toList ∧ socketExists = false then
    ⟨false, dbStatus, none⟩
  else
    ⟨socketExists, refreshNewState socketExists vmInfo,
      if dbStatus ≠ refreshNewState socketExists vmInfo
      then some (refreshNewState socketExists vmInfo) else none⟩

/-- A persisted sandbox record, with the fields written by
`SandboxService.Create` and `SandboxService.Restore`
(internal/service/session_exec.go lines 415-426 and 474-485). -/
structure Sandbox where
  id : String
  name : String
  imageId : String
  ip : List Char
  cpu : Nat
  mem : Nat
  orgId : String
  envVars : List (String × String)
  status : List Char
  createdAt : Nat
  createdBy : String
deriving DecidableEq, Repr

/-- Modelled from the spec: `repository.ISandboxRepository.UpdateStatus`
is called by `RefreshStatuses` but its implementation is not under src/.
Per the spec, the health reconciler "writes the result" of the state
mapping as the sandbox's status, and sandbox records are "mutated only by
D (status transitions) and H (status reconciliation)"; the update sets the
status field and nothing else. -/
def updateStatus (sb : Sandbox) (new : List Char) : Sandbox :=
  { sb with status := new }

/-- Effect of one `RefreshStatuses` iteration on the persisted record:
apply the issued write, if any. -/
def refreshApply (sb : Sandbox) (socketExists : Bool)
    (vmInfo : Option (List Char)) : Sandbox :=
  match (refreshSandboxStep sb.status socketExists vmInfo).dbWrite with
  | some new => updateStatus sb new
  | none => sb

/-! ## Snapshot creation (pkg/machine/snapshot.go, CreateSnapshot) -/

/-- The VMM commands `CreateSnapshot` can issue, in order. -/
inductive VMCmd
  | pause
  | snapshot
  | resume
deriving DecidableEq, Repr

/-- The observable result of `CreateSnapshot`: the VMM commands sent, in
order, and whether the call returned without error.  The background
`finalizeSnapshot` goroutine (disk copy, rename, chmod) issues no VMM
commands and is outside this trace. -/
structure SnapshotTrace where
  sent : List VMCmd
  ok : Bool
deriving DecidableEq, Repr

/-- Model of `CreateSnapshot` (snapshot.go lines 12-79) as a function of
the outcomes of its external calls: socket presence, the `GetState` reply
(`none` models a state-query error), and the success of `vm.pause`, the
snapshot-directory `MkdirAll`, `vm.snapshot` and `vm.resume`.  The control
flow mirrors the source: refuse unless the state is Running or Paused;
pause first when Running; on a snapshot failure resume (result ignored)
when previously Running and report the error; on success resume
synchronously when previously Running. -/
def createSnapshot (socketOk : Bool) (stateRes : Option String)
    (pauseOk mkdirOk snapOk resumeOk : Bool) : SnapshotTrace :=
  if socketOk = false then ⟨[], false⟩
  else
    match stateRes with
    | none => ⟨[], false⟩
    | some st =>
      if st ≠ "Running" ∧ st ≠ "Paused" then ⟨[], false⟩
      else if st = "Running" ∧ pauseOk = false then ⟨[.pause], false⟩
      else
        let pre : List VMCmd := if st = "Running" then [.pause] else []
        if mkdirOk = false then ⟨pre, false⟩
        else if snapOk = false then
          ⟨pre ++ [.snapshot] ++ (if st = "Running" then [.resume] else []),
            false⟩
        else if st = "Running" then ⟨pre ++ [.snapshot, .resume], resumeOk⟩
        else ⟨pre ++ [.snapshot], true⟩

/-! ## Vsock CID derivation and VMM configuration (src/unnamed/part_003) -/

/-- Parse one dotted-quad octet as `net.ParseIP` does for IPv4 fields:
decimal digits only, value at most 255, and no leading zero. -/
def parseOctet (s : List Char) : Option Nat :=
  if s = [] then none
  else if 1 < s.length ∧ s.head? = some '0' then none
  else if s.all (fun c => c.isDigit) then
    let n := s.foldl (fun acc c => acc * 10 + (c.toNat - 48)) 0
    if n ≤ 255 then some n else none
  else none

/-- Parse a dotted-quad IPv4 address, modelling the IPv4 acceptance of
`net.ParseIP` followed by `To4`. -/
def parseIPv4 (s : List Char) : Option (Nat × Nat × Nat × Nat) :=
  match (splitOnChar '.' s).map parseOctet with
  | [some a, some b, some c, some d] => some (a, b, c, d)
  | _ => none

/-- Model of `getCidFromIP` (part_003 lines 374-385): 0 when the address
does not parse as IPv4, else the last octet plus 1000. -/
def getCidFromIP (s : List Char) : Nat :=
  match parseIPv4 s with
  | none => 0
  | some (_, _, _, d) => d + 1000

/-- The sandbox spec consumed by `Start`. -/
structure SandboxSpec where
  id : String
  imgType : String := ""
  ipAddress : List Char
  cpus : Nat
  memoryMB : Nat
  diskMB : Nat := 0
deriving DecidableEq, Repr

/-- The cpus block of the Cloud Hypervisor config. -/
structure CpusConfig where
  bootVcpus : Nat
  maxVcpus : Nat
deriving DecidableEq, Repr

/-- The memory block of the Cloud Hypervisor config; size is in bytes. -/
structure MemoryConfig where
  size : Nat
  shared : Bool
  mergeable : Bool
  prefault : Bool
deriving DecidableEq, Repr

/-- The vsock block of the Cloud Hypervisor config. -/
structure VsockCfg where
  cid : Nat
  socket : List Char
deriving DecidableEq, Repr

/-- The parts of the `CLHConfig` built by the fresh-boot branch of `Start`
(part_003 lines 250-288) that the claims speak about. -/
structure CLHConfigCore where
  cpus : CpusConfig
  memory : MemoryConfig
  vsock : VsockCfg
deriving DecidableEq, Repr

/-- The `CLHConfig` submitted by `Start` on `vm.create`: boot and max
vcpus from the spec, memory size `MemoryMB * 1024 * 1024` with
shared and mergeable set and prefault clear, and the vsock CID derived
from the spec's IP address. -/
def startFreshBootConfig (spec : SandboxSpec) (vsockPath : List Char) :
    CLHConfigCore :=
  { cpus := ⟨spec.cpus, spec.cpus⟩
  , memory := ⟨spec.memoryMB * 1024 * 1024, true, true, false⟩
  , vsock := ⟨getCidFromIP spec.ipAddress, vsockPath⟩ }

/-! ## Restore (pkg/machine/clh_config.go and SandboxService.Restore) -/

/-- The restore request fields used by `SandboxService.Restore`. -/
structure RestoreSandboxRequest where
  newID : String
  newIP : List Char
  snapshotPath : String
  orgID : String
  userID : String
  cpu : Nat
  mem : Nat
  cold : Bool
deriving DecidableEq, Repr

/-- The spec that `machine.Restore` (clh_config.go lines 108-114) hands to
`Start`: the caller's CPU and memory never reach it; CPUs is the literal 1
and MemoryMB the literal 1024. -/
def machineRestoreSpec (newID : String) (ip : List Char) : SandboxSpec :=
  { id := newID, ipAddress := ip, cpus := 1, memoryMB := 1024 }

/-- CPU default applied by `SandboxService.Restore` before persisting. -/
def serviceRestoreCPU (req : RestoreSandboxRequest) : Nat :=
  if req.cpu = 0 then 1 else req.cpu

/-- Memory default applied by `SandboxService.Restore` before
persisting. -/
def serviceRestoreMem (req : RestoreSandboxRequest) : Nat :=
  if req.mem = 0 then 1024 else req.mem

/-- Model of `SandboxService.Restore` (session_exec.go lines 438-492):
the spec handed to the machine layer and the record persisted to the
database, given the generated object id, the allocated IP and the
creation time. -/
def serviceRestore (req : RestoreSandboxRequest) (objID : String)
    (ip : List Char) (now : Nat) : SandboxSpec × Sandbox :=
  ( machineRestoreSpec objID ip
  , { id := objID
    , name := req.newID
    , imageId := "snapshot"
    , ip := ip
    , cpu := serviceRestoreCPU req
    , mem := serviceRestoreMem req
    , orgId := req.orgID
    , envVars := []
    , status := "running".toList
    , createdAt := now
    , createdBy := req.userID } )

/-! ## Claim theorems -/

/-- Claim C1 (amended): for every vsock connection whose handshake goes
through `DialVsock`, the handshake reader consumes exactly the reply line
up to and including its first newline, so the remainder handed to the
caller begins with the first byte of the guest's subsequent reply.  The
agent HTTP pool, the WebSocket relay, session exec and the agent readiness
probe all dial through `DialVsock`; the file-upload path does not (see the
counterexample theorem). -/
theorem dialVsock_handshake_reads_exactly_first_line
    (stream rest : List Char)
    (h : (dialVsockHandshake stream).conn = some rest) :
    ∃ line, '\n' ∉ line ∧ stream = line ++ '\n' :: rest := by
  unfold dialVsockHandshake at h
  cases hl : readHandshakeLoop [] stream with
  | none => rw [hl] at h; simp at h
  | some p =>
    obtain ⟨line, rest'⟩ := p
    rw [hl] at h
    by_cases hok : startsWithOK (trimSpace line)
    · simp only [if_pos hok] at h
      have hr : rest' = rest := by simpa using h
      obtain ⟨pre, hpre, hs, _⟩ :=
        readHandshakeLoop_some_iff stream [] line rest' hl
      exact ⟨pre, hpre, hr ▸ hs⟩
    · simp [if_neg hok] at h

/-- Witness for C1's amended theorem at the stream "OK", newline, then a
reply byte: the connection is returned with that byte unconsumed. -/
theorem dialVsock_handshake_reads_exactly_first_line_witness :
    (dialVsockHandshake ("OK\nX".toList)).conn = some ['X'] ∧
      ∃ line, '\n' ∉ line ∧ ("OK\nX".toList) = line ++ '\n' :: ['X'] :=
  ⟨by decide,
   dialVsock_handshake_reads_exactly_first_line ("OK\nX".toList) ['X'] (by decide)⟩

/-- Claim C1 counterexample: the handshake reader of
`SandboxService.UploadFile` is not byte-at-a-time; on the stream "OK",
newline, then the first reply byte, its single 32-byte bulk read consumes
the reply byte (the remainder is empty rather than that byte), while
`DialVsock` on the same stream leaves the byte unconsumed. -/
theorem uploadFile_handshake_consumes_reply_byte :
    uploadHandshake ("OK\nX".toList) = some [] ∧
      uploadHandshake ("OK\nX".toList) ≠ some ['X'] ∧
      (dialVsockHandshake ("OK\nX".toList)).conn = some ['X'] := by decide

/-- Claim C2 (amended): every message relayed by the interactive PTY
channel, in either direction, is forwarded with its WebSocket message type
and byte content unchanged; the file-watch stream's client-to-agent
direction forwards nothing. -/
theorem pty_relay_preserves_messages_watch_drops_client
    (msgs : List WSMessage) (m : WSMessage) :
    ptyProxyForward m = m ∧ ptyProxyRelay msgs = msgs ∧
      watchClientToAgentRelay msgs = [] := by
  refine ⟨rfl, ?_, ?_⟩
  · show msgs.map ptyProxyForward = msgs
    rw [show ptyProxyForward = id from funext fun _ => rfl, List.map_id]
  · induction msgs with
    | nil => rfl
    | cons x xs ih => exact ih

/-- Claim C2 counterexample: a binary message arriving from the client on
the file-watch stream is read and discarded, not forwarded to the agent;
the same message on the PTY channel is forwarded intact. -/
theorem watch_relay_drops_client_message :
    watchClientToAgentRelay [⟨2, [0, 1, 2]⟩] = [] ∧
      watchClientToAgentRelay [⟨2, [0, 1, 2]⟩] ≠ [⟨2, [0, 1, 2]⟩] ∧
      ptyProxyRelay [⟨2, [0, 1, 2]⟩] = [⟨2, [0, 1, 2]⟩] := by decide

/-- Claim C3 (code bug): `FSService.CompressFile` with format "tar" on a
path containing a single quote interpolates the cleaned path, its
directory and its base name without escaping the quote — the command it
builds contains no quote-escape sequence at all, although the input path
contains a quote.  The escaped form is computed (`srcEsc`) but unused in
the tar branches. -/
theorem compressFile_tar_leaves_quote_unescaped :
    compressFileCmd ("/data/it".toList ++ [squote] ++ "s".toList) "tar" =
      some ("tar -cf ".toList ++ [squote] ++ "/data/it".toList ++ [squote] ++
        "s.tar".toList ++ [squote] ++ " -C ".toList ++ [squote] ++
        "/data".toList ++ [squote] ++ " ".toList ++ [squote] ++
        "it".toList ++ [squote] ++ "s".toList ++ [squote]) ∧
      squote ∈ ("/data/it".toList ++ [squote] ++ "s".toList) ∧
      containsSub [squote, '\\', squote, squote]
        ((compressFileCmd ("/data/it".toList ++ [squote] ++ "s".toList)
          "tar").getD []) = false ∧
      containsSub [squote, '\\', squote, squote]
        (deleteFileCmd ("/data/it".toList ++ [squote] ++ "s".toList)) =
        true := by decide

/-- Claim C4: any non-200/204 VMM response whose body contains the
substring InvalidStateTransition is coerced to success by
`APIClient.request`; any other non-200/204 response yields an error
carrying the status code and the body. -/
theorem request_coerces_invalid_state_transition
    (status : Nat) (body : List Char) :
    (status ≠ 200 → status ≠ 204 →
        containsSub invalidStateNeedle body = true →
        requestOutcome status body = none) ∧
      (status ≠ 200 → status ≠ 204 →
        containsSub invalidStateNeedle body = false →
        requestOutcome status body = some (status, body)) := by
  constructor
  · intro h1 h2 h3
    simp [requestOutcome, h1, h2, h3]
  · intro h1 h2 h3
    simp [requestOutcome, h1, h2, h3]

/-- Witness for C4: a 400 reply naming InvalidStateTransition (the
pause-twice / resume-running case) produces no error, while a plain 500
failure surfaces status and body. -/
theorem request_coerces_invalid_state_transition_witness :
    requestOutcome 400 ("error InvalidStateTransition".toList) = none ∧
      requestOutcome 500 ("boom".toList) = some (500, "boom".toList) :=
  ⟨(request_coerces_invalid_state_transition 400
      ("error InvalidStateTransition".toList)).1
      (by decide) (by decide) (by decide),
   (request_coerces_invalid_state_transition 500 ("boom".toList)).2
      (by decide) (by decide) (by decide)⟩

/-- Claim C5: one health-sweep iteration skips a stopped sandbox with no
socket (no VMM query, no write); computes stopped when the socket is
absent otherwise; queries the VMM when the socket is present and maps
Running and RunningVirtualized to running, Paused to paused, and Loaded,
anything else or an error to stopped; and issues a DB write exactly when
the computed status differs from the persisted one. -/
theorem refreshStatuses_step_spec (dbStatus st : List Char)
    (socketExists : Bool) (vmInfo : Option (List Char)) :
    (dbStatus = "stopped".toList → socketExists = false →
        refreshSandboxStep dbStatus socketExists vmInfo =
          ⟨false, dbStatus, none⟩) ∧
      (dbStatus ≠ "stopped".toList → socketExists = false →
        (refreshSandboxStep dbStatus socketExists vmInfo).queriedVMM = false ∧
          (refreshSandboxStep dbStatus socketExists vmInfo).newStatus =
            "stopped".toList) ∧
      (socketExists = true →
        (refreshSandboxStep dbStatus socketExists vmInfo).queriedVMM = true ∧
          (refreshSandboxStep dbStatus socketExists vmInfo).newStatus =
            (match vmInfo with
             | some s => mapVMState s
             | none => "stopped".toList)) ∧
      (¬(dbStatus = "stopped".toList ∧ socketExists = false) →
        (refreshSandboxStep dbStatus socketExists vmInfo).dbWrite =
          (if dbStatus ≠ (refreshSandboxStep dbStatus socketExists vmInfo).newStatus
           then some (refreshSandboxStep dbStatus socketExists vmInfo).newStatus
           else none)) ∧
      mapVMState ("Running".toList) = "running".toList ∧
      mapVMState ("RunningVirtualized".toList) = "running".toList ∧
      mapVMState ("Paused".toList) = "paused".toList ∧
      mapVMState ("Loaded".toList) = "stopped".toList ∧
      (st.map Char.toLower ≠ "running".toList →
        st.map Char.toLower ≠ "runningvirtualized".toList →
        st.map Char.toLower ≠ "paused".toList →
        mapVMState st = "stopped".toList) := by
  refine ⟨?_, ?_, ?_, ?_, by decide, by decide, by decide, by decide, ?_⟩
  · intro h1 h2
    simp [refreshSandboxStep, h1, h2]
  · intro h1 h2
    subst h2
    have hns : ¬(dbStatus = "stopped".toList ∧ (false : Bool) = false) :=
      fun hc => h1 hc.1
    unfold refreshSandboxStep
    rw [if_neg hns]
    exact ⟨rfl, rfl⟩
  · intro h3
    subst h3
    have hns : ¬(dbStatus = "stopped".toList ∧ (true : Bool) = false) :=
      fun hc => Bool.noConfusion hc.2
    unfold refreshSandboxStep
    rw [if_neg hns]
    exact ⟨rfl, rfl⟩
  · intro hns
    unfold refreshSandboxStep
    rw [if_neg hns]
  · intro h1 h2 h3
    unfold mapVMState
    rw [if_neg h1, if_neg h2, if_neg h3, ite_self]

/-- Witness for C5: a stopped sandbox with no socket is skipped; a running
sandbox with a socket reporting Paused is queried and rewritten to paused;
an unrecognized state maps to stopped. -/
theorem refreshStatuses_step_spec_witness :
    refreshSandboxStep ("stopped".toList) false none =
        ⟨false, "stopped".toList, none⟩ ∧
      (refreshSandboxStep ("running".toList) true
          (some ("Paused".toList))).queriedVMM = true ∧
      mapVMState ("Shutdown".toList) = "stopped".toList :=
  ⟨(refreshStatuses_step_spec ("stopped".toList) [] false none).1
      rfl rfl,
   ((refreshStatuses_step_spec ("running".toList) [] true
      (some ("Paused".toList))).2.2.1 rfl).1,
   (refreshStatuses_step_spec [] ("Shutdown".toList) false none).2.2.2.2.2.2.2.2
      (by decide) (by decide) (by decide)⟩

/-- Claim C6: `DialVsock` fails and closes the connection both when the
reply line exceeds 64 bytes before a newline and when the trimmed reply
line does not start with OK; in neither case is a connection handed to
the caller. -/
theorem dialVsock_rejects_long_or_non_ok
    (stream line rest : List Char) :
    (65 ≤ stream.length → (∀ c ∈ stream.take 65, c ≠ '\n') →
        dialVsockHandshake stream = ⟨none, true⟩) ∧
      ('\n' ∉ line → line.length ≤ 64 →
        startsWithOK (trimSpace line) = false →
        dialVsockHandshake (line ++ '\n' :: rest) = ⟨none, true⟩) := by
  constructor
  · intro hlen hnl
    have h := readHandshakeLoop_overflow stream [] (by simp)
      (by simpa using hlen) (by simpa using hnl)
    simp [dialVsockHandshake, h]
  · intro hnl hlen hok
    have h := readHandshakeLoop_complete line [] rest hnl (by simpa using hlen)
    simp only [List.nil_append] at h
    simp [dialVsockHandshake, h, hok]

/-- Witness for C6: a 65-byte reply with no newline is rejected, and so is
the reply "ERR busy". -/
theorem dialVsock_rejects_long_or_non_ok_witness :
    dialVsockHandshake (List.replicate 65 'A') = ⟨none, true⟩ ∧
      dialVsockHandshake ("ERR busy".toList ++ '\n' :: []) = ⟨none, true⟩ :=
  ⟨(dialVsock_rejects_long_or_non_ok (List.replicate 65 'A') [] []).1
      (by decide) (by decide),
   (dialVsock_rejects_long_or_non_ok [] ("ERR busy".toList) []).2
      (by decide) (by decide) (by decide)⟩

/-- Claim C7: `CreateSnapshot` errors without issuing vm.snapshot when the
state is neither Running nor Paused; when Running, vm.pause precedes
vm.snapshot; and when vm.snapshot fails on a previously Running sandbox,
vm.resume is sent before the error is reported. -/
theorem createSnapshot_guard_pause_resume
    (socketOk : Bool) (stateRes : Option String)
    (pauseOk mkdirOk snapOk resumeOk : Bool) (st : String) :
    (stateRes = some st → st ≠ "Running" → st ≠ "Paused" →
        createSnapshot socketOk stateRes pauseOk mkdirOk snapOk resumeOk =
          ⟨[], false⟩) ∧
      (socketOk = true → stateRes = some "Running" →
        VMCmd.snapshot ∈
            (createSnapshot socketOk stateRes pauseOk mkdirOk snapOk
              resumeOk).sent →
        (createSnapshot socketOk stateRes pauseOk mkdirOk snapOk
            resumeOk).sent.take 2 = [VMCmd.pause, VMCmd.snapshot]) ∧
      (socketOk = true → stateRes = some "Running" → pauseOk = true →
        mkdirOk = true → snapOk = false →
        createSnapshot socketOk stateRes pauseOk mkdirOk snapOk resumeOk =
          ⟨[VMCmd.pause, VMCmd.snapshot, VMCmd.resume], false⟩) ∧
      (socketOk = true → stateRes = some "Paused" → mkdirOk = true →
        snapOk = false →
        createSnapshot socketOk stateRes pauseOk mkdirOk snapOk resumeOk =
          ⟨[VMCmd.snapshot], false⟩) := by
  refine ⟨?_, ?_, ?_, ?_⟩
  · intro h1 h2 h3
    subst h1
    cases socketOk
    · rfl
    · simp [createSnapshot, h2, h3]
  · intro h1 h2
    subst h1; subst h2
    revert pauseOk mkdirOk snapOk resumeOk
    decide
  · intro h1 h2 h3 h4 h5
    subst h1; subst h2; subst h3; subst h4; subst h5
    revert resumeOk
    decide
  · intro h1 h2 h3 h4
    subst h1; subst h2; subst h3; subst h4
    revert pauseOk resumeOk
    decide

/-- Witness for C7: a Loaded sandbox is refused with nothing sent; a
Running sandbox whose vm.snapshot fails sees pause, snapshot, resume and
an error. -/
theorem createSnapshot_guard_pause_resume_witness :
    createSnapshot true (some "Loaded") true true true true = ⟨[], false⟩ ∧
      createSnapshot true (some "Running") true true false true =
        ⟨[VMCmd.pause, VMCmd.snapshot, VMCmd.resume], false⟩ :=
  ⟨(createSnapshot_guard_pause_resume true (some "Loaded") true true true
      true "Loaded").1 rfl (by decide) (by decide),
   (createSnapshot_guard_pause_resume true (some "Running") true true false
      true "Running").2.2.1 rfl rfl rfl rfl rfl⟩

/-- Claim C8: whenever the sandbox's IP address parses as an IPv4 address,
the vsock CID in the VMM configuration built by `Start` is 1000 plus the
last octet. -/
theorem vsock_cid_is_1000_plus_last_octet
    (spec : SandboxSpec) (vsockPath : List Char) (a b c d : Nat)
    (h : parseIPv4 spec.ipAddress = some (a, b, c, d)) :
    (startFreshBootConfig spec vsockPath).vsock.cid = 1000 + d := by
  simp [startFreshBootConfig, getCidFromIP, h, Nat.add_comm]

/-- Witness for C8 at the address 10.20.3.42: the configured CID is
1042. -/
theorem vsock_cid_is_1000_plus_last_octet_witness :
    parseIPv4 ("10.20.3.42".toList) = some (10, 20, 3, 42) ∧
      (startFreshBootConfig
          { id := "sbx", ipAddress := ("10.20.3.42".toList), cpus := 2,
            memoryMB := 2048 } []).vsock.cid = 1000 + 42 :=
  ⟨by decide,
   vsock_cid_is_1000_plus_last_octet
     { id := "sbx", ipAddress := ("10.20.3.42".toList), cpus := 2,
       memoryMB := 2048 } [] 10 20 3 42 (by decide)⟩

/-- Claim C9: a health-sweep iteration changes at most the status field of
the persisted sandbox record; every other field is preserved under every
sweep outcome. -/
theorem refreshStatuses_modifies_only_status
    (sb : Sandbox) (socketExists : Bool) (vmInfo : Option (List Char)) :
    (refreshApply sb socketExists vmInfo).id = sb.id ∧
      (refreshApply sb socketExists vmInfo).name = sb.name ∧
      (refreshApply sb socketExists vmInfo).imageId = sb.imageId ∧
      (refreshApply sb socketExists vmInfo).ip = sb.ip ∧
      (refreshApply sb socketExists vmInfo).cpu = sb.cpu ∧
      (refreshApply sb socketExists vmInfo).mem = sb.mem ∧
      (refreshApply sb socketExists vmInfo).orgId = sb.orgId ∧
      (refreshApply sb socketExists vmInfo).envVars = sb.envVars ∧
      (refreshApply sb socketExists vmInfo).createdAt = sb.createdAt ∧
      (refreshApply sb socketExists vmInfo).createdBy = sb.createdBy := by
  unfold refreshApply
  cases (refreshSandboxStep sb.status socketExists vmInfo).dbWrite <;>
    simp [updateStatus]

set_option maxRecDepth 4000 in
/-- Claim C10: the spec handed to the machine layer on restore carries the
literal 1 vCPU and 1024 MB whatever the request said, so the restored VM's
configuration boots 1 vcpu with 1 GiB, while the persisted record stores
the caller-supplied or defaulted CPU and memory. -/
theorem restore_forces_one_vcpu_1024mb_but_persists_caller_values
    (req : RestoreSandboxRequest) (objID : String) (ip vsockPath : List Char)
    (now : Nat) :
    (serviceRestore req objID ip now).1.cpus = 1 ∧
      (serviceRestore req objID ip now).1.memoryMB = 1024 ∧
      (startFreshBootConfig (serviceRestore req objID ip now).1
          vsockPath).cpus.bootVcpus = 1 ∧
      (startFreshBootConfig (serviceRestore req objID ip now).1
          vsockPath).cpus.maxVcpus = 1 ∧
      (startFreshBootConfig (serviceRestore req objID ip now).1
          vsockPath).memory.size = 1024 * 1024 * 1024 ∧
      (serviceRestore req objID ip now).2.cpu =
        (if req.cpu = 0 then 1 else req.cpu) ∧
      (serviceRestore req objID ip now).2.mem =
        (if req.mem = 0 then 1024 else req.mem) := by
  exact ⟨rfl, rfl, rfl, rfl, rfl, rfl, rfl⟩

end VoidRun
